import Mathlib

/-
Verification of the NEAR chain-client of the hapi-core indexer
(src/indexer/src/indexer/client/near.rs), as a shallow embedding.

Conventions of the embedding:
  - u64 values are Nat; checked Rust arithmetic is modelled explicitly:
    a subtraction that would underflow or a range end `final_block + 1`
    that would overflow u64 yields a `Failure.u64Underflow` /
    `Failure.rangeOverflow` outcome (Rust panics on overflow in checked
    builds; a panic is not a successful return).
  - fallible RPC calls are fields of an environment record returning
    `Except Unit _`; the `?` operator is an explicit match propagating
    `Failure.rpcError`.
  - `CryptoHash` is modelled as `String` (only equality and rendering
    matter to the indexer); `Uuid`/u128 ids as `Nat`.
  - the HashSet used to deduplicate hashes of one block is modelled by
    `List.eraseDups` (iteration order of the set is unspecified in the
    source; no theorem below depends on the order inside one block).
-/

namespace HapiNear

/-- Maximum value of a u64. -/
def U64MAX : Nat := 2 ^ 64 - 1

/-- Abnormal outcomes of the embedded code: propagated RPC errors,
argument decoding errors (anyhow errors in the source), and arithmetic /
indexing panics. -/
inductive Failure where
  | rpcError
  | argsError
  | u64Underflow
  | rangeOverflow
  | indexPanic
deriving DecidableEq

/-- Modelled from the spec: IndexingCursor, a tagged union with one
variant per network's native position encoding (the type itself is
declared outside the given sources; the NEAR client only builds the
`block` variant). -/
inductive IndexingCursor where
  | none
  | block (height : Nat)
  | blockLog (height logIndex : Nat)
  | slotSignature (slot : Nat) (signature : String)
deriving DecidableEq

/-- NearReceipt from the source: hash, block height and block timestamp
(nanoseconds) stored in the job at fetch time. -/
structure NearReceipt where
  hash : String
  block_height : Nat
  timestamp : Nat
deriving DecidableEq

/-- Modelled from the spec: IndexerJob, a tagged union of minimal
chain-native references; the NEAR client builds the transaction-receipt
variant. -/
inductive IndexerJob where
  | transactionReceipt (receipt : NearReceipt)
deriving DecidableEq

/-- FetchingArtifacts: the atomic result of one fetch pass. -/
structure FetchingArtifacts where
  jobs : List IndexerJob
  cursor : IndexingCursor
deriving DecidableEq

/-- NEAR_PAGE_SIZE from the source. -/
def NEAR_PAGE_SIZE : Nat := 600

/-- StateChangeCauseView: only the two causes carrying a hash are
distinguished by the source; every other cause is collapsed. -/
inductive StateChangeCauseView where
  | transactionProcessing (txHash : String)
  | receiptProcessing (receiptHash : String)
  | other
deriving DecidableEq

/-- String rendering of CryptoHash::default() (thirty-two zero bytes). -/
def defaultCryptoHash : String := "11111111111111111111111111111111"

/-- Embedding of get_hash_from_cause. -/
def get_hash_from_cause : StateChangeCauseView → String
  | .transactionProcessing txHash => txHash
  | .receiptProcessing receiptHash => receiptHash
  | .other => defaultCryptoHash

/-- RPC surface used by fetch_near_jobs: the latest-finalized-block
query, the per-block state-changes query, and the per-block timestamp
query. -/
structure NearEnv where
  latestBlock : Except Unit Nat
  changes : Nat → Except Unit (List StateChangeCauseView)
  blockTimestamp : Nat → Except Unit Nat

/-- Jobs produced by one block with a non-empty change list: the set of
distinct hashes of the causes, each wrapped as a transaction-receipt job. -/
def jobs_of_block (chs : List StateChangeCauseView) (height ts : Nat) : List IndexerJob :=
  ((chs.map get_hash_from_cause).eraseDups).map
    (fun h => IndexerJob.transactionReceipt ⟨h, height, ts⟩)

/-- Embedding of the `for block_height in start..final_block + 1` loop of
fetch_near_jobs. `n` is the number of range elements left, `h` the
current block height. Besides the accumulated jobs it records the list
of heights for which the state-changes query was issued (the scanned
blocks). A failed changes query is skipped (logged in the source); a
failed timestamp query is propagated by `?` and aborts the pass. -/
def fetchGo (env : NearEnv) (start : Nat) :
    Nat → Nat → List IndexerJob → List Nat → Except Failure (List IndexerJob × List Nat)
  | 0, _, jobs, scanned => .ok (jobs, scanned)
  | n + 1, h, jobs, scanned =>
    if NEAR_PAGE_SIZE ≤ h - start then
      .ok (jobs, scanned)
    else
      match env.changes h with
      | .error _ => fetchGo env start n (h + 1) jobs (scanned ++ [h])
      | .ok chs =>
        if chs.isEmpty then
          fetchGo env start n (h + 1) jobs (scanned ++ [h])
        else
          match env.blockTimestamp h with
          | .error _ => .error .rpcError
          | .ok ts => fetchGo env start n (h + 1) (jobs ++ jobs_of_block chs h ts) (scanned ++ [h])

/-- Embedding of fetch_near_jobs, instrumented: along with the
FetchingArtifacts of the source it returns the list of block heights
whose state changes were queried. The subtraction
`latest_block - start_block_height` and the range end `final_block + 1`
are checked u64 operations. -/
def fetch_near_run (env : NearEnv) (current_cursor : Option Nat) :
    Except Failure (FetchingArtifacts × List Nat) :=
  let start_block_height := current_cursor.getD 0
  match env.latestBlock with
  | .error _ => .error .rpcError
  | .ok latest_block =>
    if latest_block < start_block_height then .error .u64Underflow
    else
      let final_block := start_block_height + min NEAR_PAGE_SIZE (latest_block - start_block_height)
      if start_block_height = final_block then
        .ok (⟨[], .block start_block_height⟩, [])
      else if U64MAX ≤ final_block then .error .rangeOverflow
      else
        match fetchGo env start_block_height (final_block + 1 - start_block_height)
            start_block_height [] [] with
        | .error e => .error e
        | .ok (jobs, scanned) => .ok (⟨jobs, .block final_block⟩, scanned)

/-- Embedding of fetch_near_jobs as seen by the caller (the scanned-block
instrumentation dropped). -/
def fetch_near_jobs (env : NearEnv) (current_cursor : Option Nat) :
    Except Failure FetchingArtifacts :=
  (fetch_near_run env current_cursor).map Prod.fst

/-- Modelled from the spec: EventName, the closed enumeration of event
names (declared outside the given sources). The Initialize variant is
named `initialization` here. -/
inductive EventName where
  | createReporter
  | updateReporter
  | deactivateReporter
  | activateReporter
  | unstake
  | createCase
  | updateCase
  | createAddress
  | updateAddress
  | confirmAddress
  | createAsset
  | updateAsset
  | confirmAsset
  | updateStakeConfiguration
  | updateRewardConfiguration
  | setAuthority
  | initialization
deriving DecidableEq

/-- Modelled from the spec: the FromStr instance of EventName (declared
outside the given sources). Classification is by the called method name;
the spec's scenario for method create_case resolving to CreateCase and
the configuration / confirmation method names fix the snake_case
rendering of each variant. -/
def parseEventName : String → Option EventName
  | "create_reporter" => some .createReporter
  | "update_reporter" => some .updateReporter
  | "deactivate_reporter" => some .deactivateReporter
  | "activate_reporter" => some .activateReporter
  | "unstake" => some .unstake
  | "create_case" => some .createCase
  | "update_case" => some .updateCase
  | "create_address" => some .createAddress
  | "update_address" => some .updateAddress
  | "confirm_address" => some .confirmAddress
  | "create_asset" => some .createAsset
  | "update_asset" => some .updateAsset
  | "confirm_asset" => some .confirmAsset
  | "update_stake_configuration" => some .updateStakeConfiguration
  | "update_reward_configuration" => some .updateRewardConfiguration
  | "set_authority" => some .setAuthority
  | "initialize" => some .initialization
  | _ => none

/-- PushEvent from the push module: event name plus transaction
coordinates. -/
structure PushEvent where
  name : EventName
  tx_hash : String
  tx_index : Nat
  timestamp : Nat
deriving DecidableEq

/-- Modelled from the spec: PushData, a tagged union of chain-agnostic
entity snapshots. The snapshot contents are opaque to the indexer (it
forwards what the entity query returned), so each is carried as an
abstract Nat token handed out by the RPC environment. -/
inductive PushData where
  | reporter (snapshot : Nat)
  | case (snapshot : Nat)
  | address (snapshot : Nat)
  | asset (snapshot : Nat)
deriving DecidableEq

/-- PushPayload: the unit sent to the push sink. -/
structure PushPayload where
  event : PushEvent
  data : PushData
deriving DecidableEq

/-- FunctionArgs: the JSON body of a function-call action. `valid` is
whether the bytes parse as JSON at all; `fields` are the string-valued
fields of the object (the source only ever reads fields with
`as_str()`). -/
structure FunctionArgs where
  valid : Bool
  fields : List (String × String)
deriving DecidableEq

/-- ActionView: a function call (the only action the source inspects) or
any other action kind. -/
inductive ActionView where
  | functionCall (method_name : String) (args : FunctionArgs)
  | other
deriving DecidableEq

/-- ReceiptEnumView: an Action receipt carrying a list of actions, or a
Data receipt. -/
inductive ReceiptEnumView where
  | action (actions : List ActionView)
  | data
deriving DecidableEq

/-- ReceiptView as far as the source inspects it. -/
structure ReceiptView where
  receipt : ReceiptEnumView
deriving DecidableEq

/-- Embedding of get_method_from_receipt. The source indexes `actions[0]`
on an Action receipt: on an empty action list that indexing panics,
modelled as `Failure.indexPanic`. -/
def get_method_from_receipt (receipt_view : ReceiptView) :
    Except Failure (Option (String × FunctionArgs)) :=
  match receipt_view.receipt with
  | .action actions =>
    match actions with
    | [] => .error .indexPanic
    | a :: _ =>
      match a with
      | .functionCall method_name args => .ok (some (method_name, args))
      | .other => .ok none
  | .data => .ok none

/-- Embedding of get_field_from_args: JSON-decode the arguments and read
a string field, failing with an anyhow error otherwise. -/
def get_field_from_args (args : FunctionArgs) (field : String) : Except Failure String :=
  if args.valid then
    match args.fields.lookup field with
    | some value => .ok value
    | none => .error .argsError
  else .error .argsError

/-- Embedding of get_id_from_args: read the string field "id" and parse
it as a u128 (the source then wraps it as a Uuid; the Uuid is carried
here as the parsed number). -/
def get_id_from_args (args : FunctionArgs) : Except Failure Nat :=
  if args.valid then
    match args.fields.lookup "id" with
    | some idStr =>
      match idStr.toNat? with
      | some n => if n < 2 ^ 128 then .ok n else .error .argsError
      | none => .error .argsError
    | none => .error .argsError
  else .error .argsError

/-- Parse of an AssetId (a 256-bit unsigned decimal) from a string,
failing with an anyhow error otherwise. -/
def parseAssetId (s : String) : Except Failure Nat :=
  match s.toNat? with
  | some n => if n < 2 ^ 256 then .ok n else .error .argsError
  | none => .error .argsError

/-- RPC surface used by process_near_job: the receipt query (by receipt
hash) and the entity-snapshot queries of the contract client. Snapshots
are opaque Nat tokens. get_reporter and get_case are keyed by the parsed
u128 id (the source passes its string rendering). -/
structure NearResolveEnv where
  receiptView : String → Except Unit ReceiptView
  get_reporter : Nat → Except Unit Nat
  get_reporter_by_account : String → Except Unit Nat
  get_case : Nat → Except Unit Nat
  get_address : String → Except Unit Nat
  get_asset : String → Nat → Except Unit Nat

/-- Embedding of the per-event data gathering of process_near_job: the
big match on event_name. Configuration changes, pure confirmations and
contract initialization return no data (the source's early `Ok(None)`
returns, here `.ok none`); the other arms fetch the current entity
snapshot, propagating argument and RPC errors. -/
def resolve_event_data (env : NearResolveEnv) (event_name : EventName)
    (args : FunctionArgs) : Except Failure (Option PushData) :=
  match event_name with
  | .createReporter | .updateReporter | .deactivateReporter | .unstake =>
    match get_id_from_args args with
    | .error e => .error e
    | .ok id =>
      match env.get_reporter id with
      | .error _ => .error .rpcError
      | .ok r => .ok (some (.reporter r))
  | .activateReporter =>
    match get_field_from_args args "sender_id" with
    | .error e => .error e
    | .ok account_id =>
      match env.get_reporter_by_account account_id with
      | .error _ => .error .rpcError
      | .ok r => .ok (some (.reporter r))
  | .createCase | .updateCase =>
    match get_id_from_args args with
    | .error e => .error e
    | .ok id =>
      match env.get_case id with
      | .error _ => .error .rpcError
      | .ok c => .ok (some (.case c))
  | .createAddress | .updateAddress =>
    match get_field_from_args args "address" with
    | .error e => .error e
    | .ok address =>
      match env.get_address address with
      | .error _ => .error .rpcError
      | .ok a => .ok (some (.address a))
  | .confirmAddress | .confirmAsset => .ok none
  | .createAsset | .updateAsset =>
    match get_field_from_args args "address" with
    | .error e => .error e
    | .ok addr =>
      match get_field_from_args args "id" with
      | .error e => .error e
      | .ok asset_id_str =>
        match parseAssetId asset_id_str with
        | .error e => .error e
        | .ok asset_id =>
          match env.get_asset addr asset_id with
          | .error _ => .error .rpcError
          | .ok a => .ok (some (.asset a))
  | .updateStakeConfiguration | .updateRewardConfiguration | .setAuthority => .ok none
  | .initialization => .ok none

/-- Embedding of process_near_job: fetch the receipt, extract the called
method, classify it (ft_on_transfer is special-cased to ActivateReporter
before the EventName parse; a parse failure is logged and yields
`Ok(None)`), gather the entity data and build the single PushPayload. -/
def process_near_job (env : NearResolveEnv) (receipt : NearReceipt) :
    Except Failure (Option (List PushPayload)) :=
  match env.receiptView receipt.hash with
  | .error _ => .error .rpcError
  | .ok receipt_view =>
    match get_method_from_receipt receipt_view with
    | .error e => .error e
    | .ok none => .ok none
    | .ok (some (method, args)) =>
      match (if method = "ft_on_transfer" then some EventName.activateReporter
             else parseEventName method) with
      | none => .ok none
      | some event_name =>
        match resolve_event_data env event_name args with
        | .error e => .error e
        | .ok none => .ok none
        | .ok (some data) =>
          .ok (some [{ event := { name := event_name, tx_hash := receipt.hash,
                                  tx_index := 0, timestamp := receipt.timestamp },
                       data := data }])

/-! Helper lemmas about the fetch loop. -/

/-- Ok results of Except.map Prod.fst come from Ok results of the
underlying computation. -/
theorem map_fst_ok {e : Except Failure (FetchingArtifacts × List Nat)}
    {a : FetchingArtifacts} (h : e.map Prod.fst = .ok a) :
    ∃ r, e = .ok r ∧ r.1 = a := by
  cases e with
  | error e => simp [Except.map] at h
  | ok r => exact ⟨r, rfl, by simpa [Except.map] using h⟩

/-- Characterization of the scanned blocks: on success the loop queried
exactly the range of heights it visited before the page-size break. -/
theorem fetchGo_scanned (env : NearEnv) (start : Nat) :
    ∀ (n h : Nat) (jobs : List IndexerJob) (sc : List Nat)
      (res : List IndexerJob × List Nat), start ≤ h →
      fetchGo env start n h jobs sc = .ok res →
      res.2 = sc ++ List.range' h (min n (start + NEAR_PAGE_SIZE - h)) := by
  intro n
  induction n with
  | zero =>
    intro h jobs sc res hsh hok
    simp only [fetchGo] at hok
    cases hok
    simp
  | succ n ih =>
    intro h jobs sc res hsh hok
    simp only [fetchGo] at hok
    split at hok
    case isTrue hbr =>
      cases hok
      have hz : start + NEAR_PAGE_SIZE - h = 0 := by omega
      simp [hz]
    case isFalse hbr =>
      have hlt : h < start + NEAR_PAGE_SIZE := by omega
      have hrng : List.range' h (min (n + 1) (start + NEAR_PAGE_SIZE - h)) =
          h :: List.range' (h + 1) (min n (start + NEAR_PAGE_SIZE - (h + 1))) := by
        have hmin : min (n + 1) (start + NEAR_PAGE_SIZE - h) =
            (min n (start + NEAR_PAGE_SIZE - (h + 1))) + 1 := by omega
        rw [hmin, List.range'_succ]
      split at hok
      · rw [ih (h + 1) jobs (sc ++ [h]) res (by omega) hok, hrng]
        simp
      · split at hok
        · rw [ih (h + 1) jobs (sc ++ [h]) res (by omega) hok, hrng]
          simp
        · split at hok
          · cases hok
          · rw [ih (h + 1) _ (sc ++ [h]) res (by omega) hok, hrng]
            simp

/-- The loop succeeds whenever, for each height it can visit, a
non-empty successful change list comes with a successful timestamp
query; a failing change query never aborts the loop. -/
theorem fetchGo_total (env : NearEnv) (start : Nat) :
    ∀ (n h : Nat) (jobs : List IndexerJob) (sc : List Nat),
      (∀ x, h ≤ x → x < h + n → x - start < NEAR_PAGE_SIZE →
        ∀ chs, env.changes x = .ok chs → ¬ chs.isEmpty →
          ∃ ts, env.blockTimestamp x = .ok ts) →
      ∃ res, fetchGo env start n h jobs sc = .ok res := by
  intro n
  induction n with
  | zero =>
    intro h jobs sc _
    exact ⟨(jobs, sc), rfl⟩
  | succ n ih =>
    intro h jobs sc hts
    by_cases hbr : NEAR_PAGE_SIZE ≤ h - start
    · exact ⟨(jobs, sc), by simp only [fetchGo, if_pos hbr]⟩
    · cases hch : env.changes h with
      | error e =>
        obtain ⟨res, hres⟩ :=
          ih (h + 1) jobs (sc ++ [h]) (fun x h1 h2 => hts x (by omega) (by omega))
        refine ⟨res, ?_⟩
        simp only [fetchGo, if_neg hbr, hch]
        exact hres
      | ok chs =>
        by_cases hemp : chs.isEmpty
        · obtain ⟨res, hres⟩ :=
            ih (h + 1) jobs (sc ++ [h]) (fun x h1 h2 => hts x (by omega) (by omega))
          refine ⟨res, ?_⟩
          simp only [fetchGo, if_neg hbr, hch]
          rw [if_pos hemp]
          exact hres
        · obtain ⟨ts, hts0⟩ := hts h (by omega) (by omega) (by omega) chs hch hemp
          obtain ⟨res, hres⟩ :=
            ih (h + 1) (jobs ++ jobs_of_block chs h ts) (sc ++ [h])
              (fun x h1 h2 => hts x (by omega) (by omega))
          refine ⟨res, ?_⟩
          simp only [fetchGo, if_neg hbr, hch]
          rw [if_neg hemp, hts0]
          exact hres

/-- With an empty change list at every visited height the loop adds no
jobs. -/
theorem fetchGo_no_changes (env : NearEnv) (start : Nat) :
    ∀ (n h : Nat) (jobs : List IndexerJob) (sc : List Nat),
      (∀ x, h ≤ x → x < h + n → env.changes x = .ok []) →
      ∃ sc2, fetchGo env start n h jobs sc = .ok (jobs, sc2) := by
  intro n
  induction n with
  | zero => intro h jobs sc _; exact ⟨sc, rfl⟩
  | succ n ih =>
    intro h jobs sc hemp
    simp only [fetchGo]
    split
    · exact ⟨sc, rfl⟩
    · rw [hemp h (by omega) (by omega)]
      simp only [List.isEmpty_nil, if_pos]
      exact ih (h + 1) jobs (sc ++ [h]) (fun x h1 h2 => hemp x (by omega) (by omega))

/-- Successful fetch runs return a block cursor at the window end
final_block, which is at least the starting cursor and at most the
chain head when the head is ahead of the cursor. -/
theorem fetch_near_run_cursor (env : NearEnv) (c : Nat)
    (r : FetchingArtifacts × List Nat)
    (hok : fetch_near_run env (some c) = .ok r) :
    ∃ latest v, env.latestBlock = .ok latest ∧ c ≤ latest ∧
      r.1.cursor = IndexingCursor.block v ∧ c ≤ v ∧ v ≤ latest := by
  simp only [fetch_near_run, Option.getD_some] at hok
  split at hok
  · cases hok
  case h_2 latest hlatest =>
    split at hok
    · cases hok
    case isFalse hge =>
      split at hok
      case isTrue heq =>
        cases hok
        exact ⟨latest, c, hlatest, by omega, rfl, le_refl c, by omega⟩
      case isFalse hne =>
        split at hok
        · cases hok
        · split at hok
          · cases hok
          case h_2 jobs scanned heq2 =>
            cases hok
            refine ⟨latest, c + min NEAR_PAGE_SIZE (latest - c), hlatest, by omega, rfl, ?_, ?_⟩
            · omega
            · have : min NEAR_PAGE_SIZE (latest - c) ≤ latest - c := min_le_right _ _
              omega

/-- The only error the fetch loop itself produces is a propagated RPC
error (from the per-block timestamp query); in particular it never
produces an arithmetic failure. -/
theorem fetchGo_error_rpc (env : NearEnv) (start : Nat) :
    ∀ (n h : Nat) (jobs : List IndexerJob) (sc : List Nat) (e : Failure),
      fetchGo env start n h jobs sc = .error e → e = .rpcError := by
  intro n
  induction n with
  | zero => intro h jobs sc e he; simp only [fetchGo] at he; cases he
  | succ n ih =>
    intro h jobs sc e he
    simp only [fetchGo] at he
    split at he
    · cases he
    · split at he
      · exact ih _ _ _ _ he
      · split at he
        · exact ih _ _ _ _ he
        · split at he
          · cases he; rfl
          · exact ih _ _ _ _ he

/-! Concrete RPC environments used as witnesses and counterexamples. -/

/-- Environment of a quiet chain: the head query answers `latest`, no
block has contract state changes, every per-block query succeeds. -/
def envQuiet (latest : Nat) : NearEnv :=
  ⟨.ok latest, fun _ => .ok [], fun _ => .ok 0⟩

/-- Environment whose head query succeeds (head 1) and whose change
query reports one change in every block, but whose per-block timestamp
query always fails. -/
def envTimestampFail : NearEnv :=
  ⟨.ok 1, fun _ => .ok [.receiptProcessing "r1"], fun _ => .error ()⟩

/-! Claims about the fetch pass. -/

/-- C1: for every starting cursor value and every latest finalized block
height, the cursor contained in the FetchingArtifacts returned by a
successful NEAR fetch pass is greater than or equal to the starting
cursor; hence across any sequence of successful fetch calls the cursor
never decreases. -/
theorem C1_fetch_cursor_monotone (env : NearEnv) (c : Nat) (a : FetchingArtifacts)
    (hok : fetch_near_jobs env (some c) = .ok a) :
    ∃ v, a.cursor = IndexingCursor.block v ∧ c ≤ v := by
  obtain ⟨r, hr, hfst⟩ := map_fst_ok hok
  obtain ⟨latest, v, _, _, hcur, hcv, _⟩ := fetch_near_run_cursor env c r hr
  exact ⟨v, hfst ▸ hcur, hcv⟩

set_option maxRecDepth 40000 in
/-- Witness for C1: cursor 10 against a quiet chain with head 50. -/
theorem C1_fetch_cursor_monotone_witness :
    fetch_near_jobs (envQuiet 50) (some 10) = .ok ⟨[], .block 50⟩ ∧
      ∃ v, FetchingArtifacts.cursor ⟨[], .block 50⟩ = IndexingCursor.block v ∧ 10 ≤ v :=
  ⟨rfl, C1_fetch_cursor_monotone (envQuiet 50) 10 ⟨[], .block 50⟩ rfl⟩

set_option maxRecDepth 40000 in
/-- C3 counterexample: with cursor 10 and head 50 the block at the
cursor position itself, height 10, is queried for state changes again:
the scan window is left-inclusive of the cursor, not exclusive. -/
theorem C3_cursor_block_rescanned :
    fetch_near_run (envQuiet 50) (some 10) = .ok (⟨[], .block 50⟩, List.range' 10 41) ∧
      10 ∈ List.range' 10 41 :=
  ⟨rfl, by decide⟩

/-- C3 amended: every block queried for state changes during a fetch
pass started at cursor c has height at least c — blocks below the
cursor are never re-scanned, but the block at the cursor position
itself is scanned again (the window is inclusive on the left). -/
theorem C3_scanned_blocks_ge_cursor (env : NearEnv) (c : Nat)
    (r : FetchingArtifacts × List Nat)
    (hok : fetch_near_run env (some c) = .ok r) :
    ∀ h ∈ r.2, c ≤ h := by
  simp only [fetch_near_run, Option.getD_some] at hok
  split at hok
  · cases hok
  case h_2 latest hlatest =>
    split at hok
    · cases hok
    case isFalse hge =>
      split at hok
      case isTrue heq =>
        cases hok
        intro h hmem
        simp at hmem
      case isFalse hne =>
        split at hok
        · cases hok
        · split at hok
          · cases hok
          case h_2 jobs scanned heq2 =>
            cases hok
            intro h hmem
            have hscan := fetchGo_scanned env c
              (c + min NEAR_PAGE_SIZE (latest - c) + 1 - c) c [] [] (jobs, scanned)
              (le_refl c) heq2
            simp only [List.nil_append] at hscan
            simp only [hscan] at hmem
            exact (List.mem_range'_1.mp hmem).1

set_option maxRecDepth 200000 in
/-- C4 counterexample: with cursor 0 against a quiet chain with head
1000 (distance beyond the page size of 600), the pass queries blocks 0
through 599 but returns cursor Block(600), which is not the rightmost
block actually scanned (599). -/
theorem C4_cursor_beyond_scanned :
    fetch_near_run (envQuiet 1000) (some 0) = .ok (⟨[], .block 600⟩, List.range' 0 600) ∧
      (List.range' 0 600).getLast? = some 599 ∧ (599 : Nat) ≠ 600 :=
  ⟨rfl, by simp [List.getLast?_range'], by decide⟩

/-- C4 amended: when the distance from the cursor to the head is below
the page size the returned cursor is the rightmost block scanned (the
head), whether or not jobs were found; but when the distance is at
least the page size the pass scans blocks c through c + 599 and returns
cursor Block(c + 600), one block beyond the rightmost scanned one. -/
theorem C4_cursor_vs_rightmost_scanned (env : NearEnv) (c latest : Nat)
    (r : FetchingArtifacts × List Nat)
    (hlatest : env.latestBlock = .ok latest) (hlt : c < latest)
    (hok : fetch_near_run env (some c) = .ok r) :
    (latest - c < NEAR_PAGE_SIZE →
        r.2.getLast? = some latest ∧ r.1.cursor = IndexingCursor.block latest) ∧
    (NEAR_PAGE_SIZE ≤ latest - c →
        r.2.getLast? = some (c + 599) ∧
          r.1.cursor = IndexingCursor.block (c + 600)) := by
  simp only [fetch_near_run, Option.getD_some, hlatest, NEAR_PAGE_SIZE] at hok
  simp only [NEAR_PAGE_SIZE]
  rw [if_neg (by omega : ¬ latest < c)] at hok
  split at hok
  case isTrue heq => exact absurd heq (by omega)
  case isFalse hne =>
    split at hok
    · cases hok
    case isFalse hovf =>
      split at hok
      · cases hok
      case h_2 jobs scanned heq2 =>
        cases hok
        have hscan := fetchGo_scanned env c
          (c + min 600 (latest - c) + 1 - c) c [] [] (jobs, scanned)
          (le_refl c) heq2
        simp only [List.nil_append, NEAR_PAGE_SIZE] at hscan
        constructor
        · intro hA
          rw [show min (c + min 600 (latest - c) + 1 - c) (c + 600 - c) = latest + 1 - c
              by omega] at hscan
          refine ⟨?_, ?_⟩
          · simp only [hscan, List.getLast?_range']
            rw [if_neg (by omega)]
            exact congrArg some (by omega)
          · simp only []
            exact congrArg IndexingCursor.block (by omega)
        · intro hB
          rw [show min (c + min 600 (latest - c) + 1 - c) (c + 600 - c) = 600
              by omega] at hscan
          refine ⟨?_, ?_⟩
          · simp only [hscan, List.getLast?_range']
            rw [if_neg (by omega)]
            exact congrArg some (by omega)
          · simp only []
            exact congrArg IndexingCursor.block (by omega)

set_option maxRecDepth 40000 in
/-- Witness for C3: block 12, scanned by the pass from cursor 10 on the
quiet chain with head 50, is at height at least 10. -/
theorem C3_scanned_blocks_ge_cursor_witness :
    12 ∈ List.range' 10 41 ∧ (10 : Nat) ≤ 12 :=
  ⟨by decide, C3_scanned_blocks_ge_cursor (envQuiet 50) 10
    (⟨[], .block 50⟩, List.range' 10 41) rfl 12 (by decide)⟩

set_option maxRecDepth 40000 in
/-- Witness for the amended C4 at both window shapes: distance 40 keeps
cursor and rightmost scanned block equal at the head, distance 1000
leaves the cursor one beyond the rightmost scanned block. -/
theorem C4_cursor_vs_rightmost_scanned_witness :
    ((50 : Nat) - 10 < NEAR_PAGE_SIZE →
        (List.range' 10 41).getLast? = some 50 ∧
          FetchingArtifacts.cursor ⟨[], .block 50⟩ = IndexingCursor.block 50) ∧
    (NEAR_PAGE_SIZE ≤ (50 : Nat) - 10 →
        (List.range' 10 41).getLast? = some (10 + 599) ∧
          FetchingArtifacts.cursor ⟨[], .block 50⟩ = IndexingCursor.block (10 + 600)) :=
  C4_cursor_vs_rightmost_scanned (envQuiet 50) 10 50
    (⟨[], .block 50⟩, List.range' 10 41) rfl (by decide) rfl

/-- C7: fetching with cursor None against a chain whose latest finalized
height is 50 (page bound 600) and in which no contract state changes
occurred in blocks 0 through 50 returns cursor Block(50) and an empty
job list. -/
theorem C7_initial_fetch_head_50 (env : NearEnv)
    (hlatest : env.latestBlock = .ok 50)
    (hquiet : ∀ b, b ≤ 50 → env.changes b = .ok []) :
    fetch_near_jobs env .none = .ok ⟨[], .block 50⟩ := by
  obtain ⟨sc2, hgo⟩ := fetchGo_no_changes env 0 51 0 [] []
    (fun x h1 h2 => hquiet x (by omega))
  simp only [fetch_near_jobs, fetch_near_run, Option.getD_none, hlatest,
    NEAR_PAGE_SIZE, U64MAX]
  norm_num
  rw [hgo]
  rfl

set_option maxRecDepth 40000 in
/-- Witness for C7 on the quiet chain with head 50. -/
theorem C7_initial_fetch_head_50_witness :
    fetch_near_jobs (envQuiet 50) .none = .ok ⟨[], .block 50⟩ :=
  C7_initial_fetch_head_50 (envQuiet 50) rfl (fun _ _ => rfl)

/-- C10 counterexample: a persisted cursor (51) strictly greater than
the latest finalized height (50) makes the u64 window subtraction
latest_block - start_block_height underflow; the computation is not
well-defined there (checked arithmetic fails instead of returning). -/
theorem C10_cursor_past_head_underflow :
    fetch_near_jobs (envQuiet 50) (some 51) = .error .u64Underflow := rfl

/-- C10 amended: whenever the persisted cursor does not exceed the
latest finalized height, the window computation cannot underflow, and
any successfully returned cursor is at most max(cursor, head); a cursor
strictly beyond the head instead underflows the u64 subtraction. -/
theorem C10_window_arithmetic_safe (env : NearEnv) (c latest : Nat)
    (hlatest : env.latestBlock = .ok latest) (hle : c ≤ latest) :
    fetch_near_run env (some c) ≠ .error .u64Underflow ∧
      ∀ a, fetch_near_jobs env (some c) = .ok a →
        ∀ v, a.cursor = IndexingCursor.block v → v ≤ max c latest := by
  constructor
  · intro hbad
    simp only [fetch_near_run, Option.getD_some, hlatest] at hbad
    rw [if_neg (by omega : ¬ latest < c)] at hbad
    split at hbad
    · cases hbad
    · split at hbad
      · cases hbad
      · split at hbad
        case h_1 e heq => exact absurd (congrArg id (by cases hbad; rfl) :
            e = Failure.u64Underflow) (by simp [fetchGo_error_rpc env c _ _ _ _ e heq])
        case h_2 jobs scanned heq => cases hbad
  · intro a hok v hv
    obtain ⟨r, hr, hfst⟩ := map_fst_ok hok
    obtain ⟨latest2, v2, hlat2, _, hcur, _, hvle⟩ := fetch_near_run_cursor env c r hr
    rw [hlatest] at hlat2
    cases hlat2
    rw [← hfst] at hv
    rw [hcur] at hv
    cases hv
    omega

set_option maxRecDepth 40000 in
/-- Witness for the amended C10 at cursor 10 against head 50. -/
theorem C10_window_arithmetic_safe_witness :
    fetch_near_run (envQuiet 50) (some 10) ≠ .error .u64Underflow ∧
      ∀ a, fetch_near_jobs (envQuiet 50) (some 10) = .ok a →
        ∀ v, a.cursor = IndexingCursor.block v → v ≤ max 10 50 :=
  C10_window_arithmetic_safe (envQuiet 50) 10 50 rfl (by decide)

/-- C2 counterexample: the latest-height query succeeds (head 1) and
block 0's change-set query succeeds with one change, but the per-block
timestamp query — a per-unit RPC call for a single block inside the
window — fails; the whole pass aborts with an error instead of skipping
that block and returning FetchingArtifacts. -/
theorem C2_timestamp_failure_aborts :
    envTimestampFail.latestBlock = .ok 1 ∧
      envTimestampFail.changes 0 = .ok [.receiptProcessing "r1"] ∧
      fetch_near_jobs envTimestampFail (some 0) = .error .rpcError :=
  ⟨rfl, rfl, rfl⟩

/-- C2 amended: a failure of the change-set query for one block inside
the scan window is logged and that block skipped while the pass
continues and still returns FetchingArtifacts; but besides the
latest-height query, whose failure aborts the pass, the per-block
timestamp query (issued when a block has changes) also aborts the whole
pass on failure. -/
theorem C2_per_unit_failure_policy :
    (∀ (env : NearEnv) (cursor : Option Nat) (e : Unit),
        env.latestBlock = .error e →
        fetch_near_jobs env cursor = .error .rpcError) ∧
    (∀ (env : NearEnv) (c latest : Nat), env.latestBlock = .ok latest →
        c ≤ latest → latest < U64MAX →
        (∀ x chs, c ≤ x → x - c < NEAR_PAGE_SIZE →
            env.changes x = .ok chs → ¬ chs.isEmpty →
            ∃ ts, env.blockTimestamp x = .ok ts) →
        ∃ a, fetch_near_jobs env (some c) = .ok a) := by
  constructor
  · intro env cursor e he
    simp [fetch_near_jobs, fetch_near_run, he, Except.map]
  · intro env c latest hlatest hle hmax hts
    by_cases heq : c = c + min NEAR_PAGE_SIZE (latest - c)
    · refine ⟨⟨[], .block c⟩, ?_⟩
      simp only [fetch_near_jobs, fetch_near_run, Option.getD_some, hlatest]
      rw [if_neg (by omega : ¬ latest < c), if_pos heq]
      rfl
    · obtain ⟨res, hgo⟩ := fetchGo_total env c
        (c + min NEAR_PAGE_SIZE (latest - c) + 1 - c) c [] []
        (fun x h1 h2 h3 chs hch hne => hts x chs h1 h3 hch hne)
      obtain ⟨jobs, scanned⟩ := res
      refine ⟨⟨jobs, .block (c + min NEAR_PAGE_SIZE (latest - c))⟩, ?_⟩
      simp only [fetch_near_jobs, fetch_near_run, Option.getD_some, hlatest]
      rw [if_neg (by omega : ¬ latest < c), if_neg heq,
        if_neg (show ¬ U64MAX ≤ c + min NEAR_PAGE_SIZE (latest - c) by
          have := min_le_right NEAR_PAGE_SIZE (latest - c); omega)]
      rw [hgo]
      rfl

/-- Witness for the amended C2: a failing head query aborts, and on a
chain of head 2 whose change query fails at block 1 but whose timestamp
queries succeed, the pass still returns artifacts. -/
theorem C2_per_unit_failure_policy_witness :
    fetch_near_jobs ⟨.error (), (envQuiet 2).changes, (envQuiet 2).blockTimestamp⟩
        (some 0) = .error .rpcError ∧
      ∃ a, fetch_near_jobs
          ⟨.ok 2, fun b => if b = 1 then .error () else .ok [], fun _ => .ok 7⟩
          (some 0) = .ok a :=
  ⟨C2_per_unit_failure_policy.1 _ (some 0) () rfl,
   C2_per_unit_failure_policy.2 _ 0 2 rfl (by decide) (by decide)
     (fun x chs _ _ hch hne => by
        by_cases hx : x = 1
        · simp [hx] at hch
        · simp [hx] at hch; simp [← hch] at hne)⟩

/-! Claims about job resolution. -/

/-- Environment for an activation job: receipt h6 carries a function
call of method ft_on_transfer with argument field sender_id = alice,
and the reporter snapshot for account alice is token 7. -/
def envActivate : NearResolveEnv :=
  ⟨fun h => if h = "h6" then
      .ok ⟨.action [.functionCall "ft_on_transfer" ⟨true, [("sender_id", "alice")]⟩]⟩
    else .error (),
   fun _ => .error (), fun a => if a = "alice" then .ok 7 else .error (),
   fun _ => .error (), fun _ => .error (), fun _ _ => .error ()⟩

/-- Environment for a job whose method maps to no EventName. -/
def envUnknown : NearResolveEnv :=
  ⟨fun _ => .ok ⟨.action [.functionCall "mystery_method" ⟨true, []⟩]⟩,
   fun _ => .error (), fun _ => .error (),
   fun _ => .error (), fun _ => .error (), fun _ _ => .error ()⟩

/-- Environment whose receipt query yields an Action receipt with an
empty actions list. -/
def envEmptyActions : NearResolveEnv :=
  ⟨fun _ => .ok ⟨.action []⟩,
   fun _ => .error (), fun _ => .error (),
   fun _ => .error (), fun _ => .error (), fun _ _ => .error ()⟩

/-- C6: a NEAR job whose receipt's called method is exactly
ft_on_transfer is classified as ActivateReporter regardless of any other
method-name mapping, and the reporter snapshot is fetched by the account
taken from the sender_id argument (get_reporter_by_account), not by a
reporter id. -/
theorem C6_ft_on_transfer_activates (env : NearResolveEnv) (receipt : NearReceipt)
    (args : FunctionArgs) (rest : List ActionView) (account : String) (rep : Nat)
    (hview : env.receiptView receipt.hash =
      .ok ⟨.action (.functionCall "ft_on_transfer" args :: rest)⟩)
    (hacct : get_field_from_args args "sender_id" = .ok account)
    (hrep : env.get_reporter_by_account account = .ok rep) :
    process_near_job env receipt =
      .ok (some [⟨⟨.activateReporter, receipt.hash, 0, receipt.timestamp⟩,
        .reporter rep⟩]) := by
  simp only [process_near_job, hview, get_method_from_receipt]
  simp [resolve_event_data, hacct, hrep]

/-- Witness for C6 on the concrete activation environment. -/
theorem C6_ft_on_transfer_activates_witness :
    process_near_job envActivate ⟨"h6", 1, 5⟩ =
      .ok (some [⟨⟨.activateReporter, "h6", 0, 5⟩, .reporter 7⟩]) :=
  C6_ft_on_transfer_activates envActivate ⟨"h6", 1, 5⟩
    ⟨true, [("sender_id", "alice")]⟩ [] "alice" 7 rfl rfl rfl

/-- C5 counterexample: the method ft_on_transfer does not parse into any
EventName, yet resolution of its job returns Some payload (the
activation event), not the Ok(None) the claim requires for every
unparseable method. -/
theorem C5_ft_on_transfer_not_silent :
    parseEventName "ft_on_transfer" = Option.none ∧
      process_near_job envActivate ⟨"h6", 1, 5⟩ =
        .ok (some [⟨⟨.activateReporter, "h6", 0, 5⟩, .reporter 7⟩]) := by
  refine ⟨rfl, ?_⟩
  simp [process_near_job, envActivate, get_method_from_receipt,
    resolve_event_data, get_field_from_args]

/-- C5 amended: for every NEAR job whose receipt carries a function call
whose method is not ft_on_transfer and either parses into no EventName
or is classified as a configuration change
(update_stake_configuration, update_reward_configuration,
set_authority), a pure confirmation (confirm_address, confirm_asset) or
contract initialization, resolution returns Ok(None): a normal
non-error outcome, never an Err. (ft_on_transfer also parses into no
EventName but is special-cased to the activation event before the
parse.) -/
theorem C5_silent_methods_none (env : NearResolveEnv) (receipt : NearReceipt)
    (rv : ReceiptView) (method : String) (args : FunctionArgs) (rest : List ActionView)
    (hview : env.receiptView receipt.hash = .ok rv)
    (hrv : rv.receipt = .action (.functionCall method args :: rest))
    (hnotft : method ≠ "ft_on_transfer")
    (hclass : parseEventName method = Option.none ∨
      parseEventName method = some .updateStakeConfiguration ∨
      parseEventName method = some .updateRewardConfiguration ∨
      parseEventName method = some .setAuthority ∨
      parseEventName method = some .confirmAddress ∨
      parseEventName method = some .confirmAsset ∨
      parseEventName method = some .initialization) :
    process_near_job env receipt = .ok Option.none := by
  simp only [process_near_job, hview, get_method_from_receipt, hrv]
  rw [if_neg hnotft]
  rcases hclass with h | h | h | h | h | h | h <;>
    rw [h] <;> simp [resolve_event_data]

/-- Witness for the amended C5: a job of unknown method mystery_method
resolves to Ok(None). -/
theorem C5_silent_methods_none_witness :
    process_near_job envUnknown ⟨"h5", 0, 0⟩ = .ok Option.none :=
  C5_silent_methods_none envUnknown ⟨"h5", 0, 0⟩
    ⟨.action [.functionCall "mystery_method" ⟨true, []⟩]⟩ "mystery_method"
    ⟨true, []⟩ [] rfl rfl (by simp) (Or.inl rfl)

/-- C8: whenever resolution returns Some, the result is a vector of
exactly one PushPayload whose event has tx_index 0, tx_hash the string
form of the job's receipt hash, and timestamp the block timestamp
stored in the job when it was fetched. -/
theorem C8_payload_fields (env : NearResolveEnv) (receipt : NearReceipt)
    (ps : List PushPayload)
    (hok : process_near_job env receipt = .ok (some ps)) :
    ∃ p, ps = [p] ∧ p.event.tx_index = 0 ∧ p.event.tx_hash = receipt.hash ∧
      p.event.timestamp = receipt.timestamp := by
  simp only [process_near_job] at hok
  split at hok
  · exact absurd hok (by simp)
  · split at hok
    · exact absurd hok (by simp)
    · exact absurd hok (by simp)
    · split at hok
      · exact absurd hok (by simp)
      · split at hok
        · exact absurd hok (by simp)
        · exact absurd hok (by simp)
        · simp only [Except.ok.injEq, Option.some.injEq] at hok
          exact ⟨_, hok.symm, rfl, rfl, rfl⟩

/-- Witness for C8 on the concrete activation job. -/
theorem C8_payload_fields_witness :
    ∃ p, [(⟨⟨.activateReporter, "h6", 0, 5⟩, .reporter 7⟩ : PushPayload)] = [p] ∧
      p.event.tx_index = 0 ∧ p.event.tx_hash = "h6" ∧ p.event.timestamp = 5 :=
  C8_payload_fields envActivate ⟨"h6", 1, 5⟩ _
    (by simp [process_near_job, envActivate, get_method_from_receipt,
      resolve_event_data, get_field_from_args])

/-- C9 counterexample: an Action receipt whose actions list is empty
makes the actions[0] indexing panic, both in method extraction and in
resolution after a successful receipt query; it does not yield None. -/
theorem C9_empty_actions_panic :
    get_method_from_receipt ⟨.action []⟩ = .error .indexPanic ∧
      process_near_job envEmptyActions ⟨"h9", 0, 0⟩ = .error .indexPanic :=
  ⟨rfl, rfl⟩

/-- C9 amended: method extraction returns None on a receipt that is not
an Action receipt and on an Action receipt whose first action is not a
FunctionCall, but an Action receipt with an empty actions list panics
on the actions[0] indexing instead of returning. -/
theorem C9_method_extraction_shapes (rest : List ActionView) :
    get_method_from_receipt ⟨.data⟩ = .ok Option.none ∧
      get_method_from_receipt ⟨.action (.other :: rest)⟩ = .ok Option.none ∧
      get_method_from_receipt ⟨.action []⟩ = .error .indexPanic :=
  ⟨rfl, rfl, rfl⟩

end HapiNear
